import Mathlib

/-!
Verification of the snake-game simulation in src/main.rs (bevy_snake).

The simulation state is embedded shallowly. Positions are world coordinates;
in the source they are f32 components of a Vec3, but every position the
simulation ever produces is an integer multiple of SNAKE_SIZE = 50 with
magnitude at most a few hundred, a range on which f32 arithmetic and
equality are exact, so positions are modelled as pairs of integers (the z
component is constantly 0 and is dropped).

The three bevy systems become pure functions on the state:
  - move_snake_system   (fixed-timestep tick),
  - snake_input_system  (one just-pressed key),
  - fruit_collision_system (pickup check; the two integers drawn from the
    rng are passed as arguments, constrained to the ranges rng.gen_range
    is called with).
Game over in the source is an AppExit event that terminates the app, after
which no further system runs; this terminal behaviour is modelled by making
every system the identity once gameOver is set.
-/

set_option autoImplicit false

namespace BevySnake

/-- FIELD_WIDTH from src/main.rs: field half-width in cells. -/
def FIELD_WIDTH : Int := 10

/-- FIELD_HEIGHT from src/main.rs: field half-height in cells. -/
def FIELD_HEIGHT : Int := 10

/-- SNAKE_SIZE from src/main.rs: cell size in world units (50.0). -/
def SNAKE_SIZE : Int := 50

/-- The simulation state: the head transform translation, the SnakeHead
component fields direction and tail (the tail is kept as the list of the
segment transform translations, in the order of the entity list), the fruit
transform translation, and whether AppExit has been sent. The SnakeHead
size field is Vec2::splat(SNAKE_SIZE) from setup_system and is folded into
the constant. -/
structure SnakeState where
  headPos : Int × Int
  direction : Int × Int
  tail : List (Int × Int)
  fruitPos : Int × Int
  gameOver : Bool
deriving Repr, DecidableEq

/-- The body-shift loop of move_snake_system: pos is the head translation
after the move, prev starts as the translation before the move; for each
part the loop first compares the part translation (still the pre-shift one)
with pos and then swaps it with prev. Returns the shifted list and whether
any comparison succeeded (an AppExit was sent). -/
def shiftTail (pos : Int × Int) : Int × Int → List (Int × Int) → List (Int × Int) × Bool
  | _, [] => ([], false)
  | prev, p :: rest =>
    let r := shiftTail pos p rest
    (prev :: r.1, (decide (p = pos) || r.2))

/-- The bounds check of move_snake_system: x_bounds and y_bounds are the
inclusive ranges from minus FIELD half-extent times SNAKE_SIZE to the
half-extent times SNAKE_SIZE (saturating_neg of 10 as an i16 is exactly
-10). -/
def inBoundsB (p : Int × Int) : Bool :=
  decide (-FIELD_WIDTH * SNAKE_SIZE ≤ p.1) && decide (p.1 ≤ FIELD_WIDTH * SNAKE_SIZE) &&
    decide (-FIELD_HEIGHT * SNAKE_SIZE ≤ p.2) && decide (p.2 ≤ FIELD_HEIGHT * SNAKE_SIZE)

/-- The head translation after the += line of move_snake_system: the old
translation plus direction.x * size.x on x and direction.y * size.y on y. -/
def movePos (s : SnakeState) : Int × Int :=
  (s.headPos.1 + s.direction.1 * SNAKE_SIZE, s.headPos.2 + s.direction.2 * SNAKE_SIZE)

/-- move_snake_system from src/main.rs: advance the head translation,
shift the tail with the collision comparison, then send AppExit when the
new head translation leaves the bounds. -/
def move_snake_system (s : SnakeState) : SnakeState :=
  if s.gameOver then s else
    let pos := movePos s
    let r := shiftTail pos s.headPos s.tail
    { s with headPos := pos, tail := r.1, gameOver := (r.2 || !(inBoundsB pos)) }

/-- The keys snake_input_system distinguishes; Other stands for every key
that falls into the catch-all arm of the match. -/
inductive Key where
  | keyA | keyD | keyW | keyS | left | right | up | down | other
deriving Repr, DecidableEq

/-- snake_input_system from src/main.rs, for one just-pressed key: A and
Left set direction (-1, 0), D and Right set (1, 0), W and Up set (0, 1),
S and Down set (0, -1), anything else is skipped. A frame with several
just-pressed keys is a sequence of these steps. -/
def snake_input_system (s : SnakeState) (k : Key) : SnakeState :=
  if s.gameOver then s else
    match k with
    | Key.keyA | Key.left => { s with direction := (-1, 0) }
    | Key.keyD | Key.right => { s with direction := (1, 0) }
    | Key.keyW | Key.up => { s with direction := (0, 1) }
    | Key.keyS | Key.down => { s with direction := (0, -1) }
    | Key.other => s

/-- gen_fruit_pos from src/main.rs: the rng yields x in the inclusive range
from saturating_neg FIELD_WIDTH to FIELD_WIDTH and y likewise for
FIELD_HEIGHT; the result is (x * SNAKE_SIZE, y * SNAKE_SIZE). The two
sampled integers are the arguments. -/
def gen_fruit_pos (rx ry : Int) : Int × Int :=
  (rx * SNAKE_SIZE, ry * SNAKE_SIZE)

/-- The ranges rng.gen_range is called with in gen_fruit_pos. -/
def RngInRange (rx ry : Int) : Prop :=
  -FIELD_WIDTH ≤ rx ∧ rx ≤ FIELD_WIDTH ∧ -FIELD_HEIGHT ≤ ry ∧ ry ≤ FIELD_HEIGHT

instance : ∀ rx ry, Decidable (RngInRange rx ry) := by
  intro rx ry
  unfold RngInRange
  infer_instance

/-- fruit_collision_system from src/main.rs: when the head translation
equals the fruit translation, the fruit is moved to gen_fruit_pos and one
part is appended behind the last tail part. tail.last().unwrap_or(head
entity) falls back to the head entity, which carries SnakePart as well
(create_snake_part inserts SnakePart before SnakeHead is added), so the
snake_parts lookup always succeeds; the new part sits at that translation
minus direction * SNAKE_SIZE componentwise. -/
def fruit_collision_system (s : SnakeState) (rx ry : Int) : SnakeState :=
  if s.gameOver then s else
    if s.headPos = s.fruitPos then
      let lastPos := s.tail.getLast?.getD s.headPos
      { s with
        fruitPos := gen_fruit_pos rx ry,
        tail := s.tail ++
          [(lastPos.1 - s.direction.1 * SNAKE_SIZE, lastPos.2 - s.direction.2 * SNAKE_SIZE)] }
    else s

/-- The state set up by setup_system: head spawned at Vec3::ZERO with the
SnakeHead default direction Vec2::ZERO and empty tail, fruit at
gen_fruit_pos of the two integers the rng produced. -/
def initState (rx ry : Int) : SnakeState :=
  { headPos := (0, 0), direction := (0, 0), tail := [],
    fruitPos := gen_fruit_pos rx ry, gameOver := false }

/-- The states the app can be in: the setup state, followed by any
interleaving of input events, fixed-timestep ticks and fruit-collision
frames, with every rng draw in its range. -/
inductive Reachable : SnakeState → Prop where
  | init (rx ry : Int) : RngInRange rx ry → Reachable (initState rx ry)
  | input {s : SnakeState} (k : Key) : Reachable s → Reachable (snake_input_system s k)
  | tick {s : SnakeState} : Reachable s → Reachable (move_snake_system s)
  | fruit {s : SnakeState} (rx ry : Int) :
      Reachable s → RngInRange rx ry → Reachable (fruit_collision_system s rx ry)

/-- Iterated ticks. -/
def ticks : Nat → SnakeState → SnakeState
  | 0, s => s
  | n + 1, s => ticks n (move_snake_system s)

/-- Every element of the shifted list is prev or one of the original parts. -/
theorem shiftTail_fst_mem (pos : Int × Int) :
    ∀ (l : List (Int × Int)) (prev p : Int × Int),
      p ∈ (shiftTail pos prev l).1 → p = prev ∨ p ∈ l := by
  intro l
  induction l with
  | nil => intro prev p h; exact absurd h (List.not_mem_nil p)
  | cons q rest ih =>
    intro prev p h
    simp only [shiftTail, List.mem_cons] at h
    rcases h with h | h
    · exact Or.inl h
    · rcases ih q p h with h | h
      · exact Or.inr (h ▸ List.mem_cons_self q rest)
      · exact Or.inr (List.mem_cons_of_mem q h)

/-- When some part sits at pos before the shift, the collision flag is set. -/
theorem shiftTail_snd_of_mem (pos : Int × Int) :
    ∀ (l : List (Int × Int)) (prev p : Int × Int),
      p ∈ l → p = pos → (shiftTail pos prev l).2 = true := by
  intro l
  induction l with
  | nil => intro prev p h; exact absurd h (List.not_mem_nil p)
  | cons q rest ih =>
    intro prev p h hp
    simp only [shiftTail, Bool.or_eq_true, decide_eq_true_eq]
    rcases List.mem_cons.1 h with h | h
    · exact Or.inl (h ▸ hp)
    · exact Or.inr (ih q p h hp)

/-- When no part sits at pos before the shift, the collision flag stays
clear. -/
theorem shiftTail_snd_false (pos : Int × Int) :
    ∀ (l : List (Int × Int)) (prev : Int × Int),
      (∀ p ∈ l, p ≠ pos) → (shiftTail pos prev l).2 = false := by
  intro l
  induction l with
  | nil => intro prev _; rfl
  | cons q rest ih =>
    intro prev h
    simp only [shiftTail, Bool.or_eq_false_iff, decide_eq_false_iff_not]
    exact ⟨h q (List.mem_cons_self q rest), ih q fun p hp => h p (List.mem_cons_of_mem q hp)⟩

/-- The shift preserves the number of parts. -/
theorem shiftTail_fst_length (pos : Int × Int) :
    ∀ (l : List (Int × Int)) (prev : Int × Int), (shiftTail pos prev l).1.length = l.length := by
  intro l
  induction l with
  | nil => intro prev; rfl
  | cons q rest ih =>
    intro prev
    simp only [shiftTail, List.length_cons, ih q]

/-- Each shifted part holds the pre-shift position of its predecessor in
the list prev :: l. -/
theorem shiftTail_fst_getElem (pos : Int × Int) :
    ∀ (l : List (Int × Int)) (prev : Int × Int) (k : Nat), k < l.length →
      (shiftTail pos prev l).1[k]? = (prev :: l)[k]? := by
  intro l
  induction l with
  | nil => intro prev k hk; exact absurd hk (Nat.not_lt_zero k)
  | cons q rest ih =>
    intro prev k hk
    match k with
    | 0 => simp [shiftTail]
    | k + 1 =>
      simp only [shiftTail, List.getElem?_cons_succ]
      exact ih q k (Nat.lt_of_succ_lt_succ hk)

/-- The directions snake_input_system can write, plus the initial zero. -/
def DirOk (d : Int × Int) : Prop :=
  d = (0, 0) ∨ d = (-1, 0) ∨ d = (1, 0) ∨ d = (0, 1) ∨ d = (0, -1)

/-- Facts that hold in every reachable state: the direction is the initial
zero or one of the four written unit vectors; while no input has arrived
the head is still at the origin and every tail part (each grown at the
head position minus a zero step) is at the origin too; and while AppExit
has not been sent, the head is inside the bounds. -/
def Inv (s : SnakeState) : Prop :=
  DirOk s.direction ∧
    (s.direction = (0, 0) → s.headPos = (0, 0) ∧ ∀ p ∈ s.tail, p = (0, 0)) ∧
    (s.gameOver = false → inBoundsB s.headPos = true)

/-- The tail fallback of fruit_collision_system lands on an existing part
or on the head position. -/
theorem getLast_getD_mem_or_eq (l : List (Int × Int)) (a : Int × Int) :
    l.getLast?.getD a ∈ l ∨ l.getLast?.getD a = a := by
  match l with
  | [] => exact Or.inr rfl
  | q :: rest =>
    left
    rw [List.getLast?_eq_getLast (q :: rest) (List.cons_ne_nil q rest)]
    exact List.getLast_mem (List.cons_ne_nil q rest)

theorem move_snake_system_gameOver (s : SnakeState) (hg : s.gameOver = true) :
    move_snake_system s = s := by
  simp [move_snake_system, hg]

theorem move_snake_system_eq (s : SnakeState) (hg : s.gameOver = false) :
    move_snake_system s =
      { s with
        headPos := movePos s,
        tail := (shiftTail (movePos s) s.headPos s.tail).1,
        gameOver :=
          ((shiftTail (movePos s) s.headPos s.tail).2 || !(inBoundsB (movePos s))) } := by
  simp [move_snake_system, hg]

theorem snake_input_system_gameOver (s : SnakeState) (k : Key) (hg : s.gameOver = true) :
    snake_input_system s k = s := by
  cases k <;> simp [snake_input_system, hg]

theorem fruit_collision_system_gameOver (s : SnakeState) (rx ry : Int)
    (hg : s.gameOver = true) : fruit_collision_system s rx ry = s := by
  simp [fruit_collision_system, hg]

theorem fruit_collision_system_pickup (s : SnakeState) (rx ry : Int)
    (hg : s.gameOver = false) (hp : s.headPos = s.fruitPos) :
    fruit_collision_system s rx ry =
      { s with
        fruitPos := gen_fruit_pos rx ry,
        tail := s.tail ++
          [((s.tail.getLast?.getD s.headPos).1 - s.direction.1 * SNAKE_SIZE,
            (s.tail.getLast?.getD s.headPos).2 - s.direction.2 * SNAKE_SIZE)] } := by
  rw [fruit_collision_system, hg, if_neg (by simp), if_pos hp]

theorem fruit_collision_system_no_pickup (s : SnakeState) (rx ry : Int)
    (hp : s.headPos ≠ s.fruitPos) : fruit_collision_system s rx ry = s := by
  simp [fruit_collision_system, hp]

theorem inv_init (rx ry : Int) : Inv (initState rx ry) :=
  ⟨Or.inl rfl, fun _ => ⟨rfl, by intro p hp; simp [initState] at hp⟩,
    fun _ => by show inBoundsB (0, 0) = true; decide⟩

theorem inv_setDir (s : SnakeState) (d : Int × Int) (h : Inv s) (hd : DirOk d)
    (hnz : ¬d = (0, 0)) : Inv { s with direction := d } :=
  ⟨hd, fun h0 => absurd h0 hnz, h.2.2⟩

theorem inv_input (s : SnakeState) (k : Key) (h : Inv s) : Inv (snake_input_system s k) := by
  by_cases hg : s.gameOver = true
  · rw [snake_input_system_gameOver s k hg]
    exact h
  · have hg' : s.gameOver = false := by simpa using hg
    cases k
    · rw [snake_input_system, if_neg hg]
      exact inv_setDir s (-1, 0) h (Or.inr (Or.inl rfl)) (by decide)
    · rw [snake_input_system, if_neg hg]
      exact inv_setDir s (1, 0) h (Or.inr (Or.inr (Or.inl rfl))) (by decide)
    · rw [snake_input_system, if_neg hg]
      exact inv_setDir s (0, 1) h (Or.inr (Or.inr (Or.inr (Or.inl rfl)))) (by decide)
    · rw [snake_input_system, if_neg hg]
      exact inv_setDir s (0, -1) h (Or.inr (Or.inr (Or.inr (Or.inr rfl)))) (by decide)
    · rw [snake_input_system, if_neg hg]
      exact inv_setDir s (-1, 0) h (Or.inr (Or.inl rfl)) (by decide)
    · rw [snake_input_system, if_neg hg]
      exact inv_setDir s (1, 0) h (Or.inr (Or.inr (Or.inl rfl))) (by decide)
    · rw [snake_input_system, if_neg hg]
      exact inv_setDir s (0, 1) h (Or.inr (Or.inr (Or.inr (Or.inl rfl)))) (by decide)
    · rw [snake_input_system, if_neg hg]
      exact inv_setDir s (0, -1) h (Or.inr (Or.inr (Or.inr (Or.inr rfl)))) (by decide)
    · rw [snake_input_system, if_neg hg]
      exact h

theorem inv_tick (s : SnakeState) (h : Inv s) : Inv (move_snake_system s) := by
  by_cases hg : s.gameOver = true
  · rw [move_snake_system_gameOver s hg]; exact h
  · have hg' : s.gameOver = false := by simpa using hg
    rw [move_snake_system_eq s hg']
    obtain ⟨h1, h2, h3⟩ := h
    refine ⟨h1, ?_, ?_⟩
    · intro hd
      obtain ⟨hh, ht⟩ := h2 hd
      have hpos : movePos s = (0, 0) := by
        unfold movePos
        rw [hd, hh]
        simp
      refine ⟨hpos, ?_⟩
      intro p hp
      rcases shiftTail_fst_mem _ s.tail s.headPos p hp with hpp | hpp
      · exact hpp.trans hh
      · exact ht p hpp
    · intro hgo
      rcases Bool.or_eq_false_iff.1 hgo with ⟨_, hb⟩
      simpa using hb

theorem inv_fruit (s : SnakeState) (rx ry : Int) (h : Inv s) :
    Inv (fruit_collision_system s rx ry) := by
  by_cases hg : s.gameOver = true
  · rw [fruit_collision_system_gameOver s rx ry hg]; exact h
  · have hg' : s.gameOver = false := by simpa using hg
    by_cases hp : s.headPos = s.fruitPos
    · rw [fruit_collision_system_pickup s rx ry hg' hp]
      obtain ⟨h1, h2, h3⟩ := h
      refine ⟨h1, ?_, h3⟩
      intro hd
      obtain ⟨hh, ht⟩ := h2 hd
      have hx : s.direction.1 = 0 := by rw [hd]
      have hy : s.direction.2 = 0 := by rw [hd]
      refine ⟨hh, ?_⟩
      intro p hpm
      rcases List.mem_append.1 hpm with hpm | hpm
      · exact ht p hpm
      · have hlast : s.tail.getLast?.getD s.headPos = (0, 0) := by
          rcases getLast_getD_mem_or_eq s.tail s.headPos with hm | hm
          · exact ht _ hm
          · exact hm.trans hh
        simp only [List.mem_singleton] at hpm
        rw [hpm, hx, hy, hlast]
        simp
    · rw [fruit_collision_system_no_pickup s rx ry hp]
      exact h

/-- Every reachable state satisfies the invariant. -/
theorem reachable_inv (s : SnakeState) (h : Reachable s) : Inv s := by
  induction h with
  | init rx ry _ => exact inv_init rx ry
  | input k _ ih => exact inv_input _ k ih
  | tick _ ih => exact inv_tick _ ih
  | fruit rx ry _ _ ih => exact inv_fruit _ rx ry ih

/-- C2: for every tick while running with non-zero direction, the tick
keeps the segment count and moves each segment k to the pre-tick position
of its predecessor in the head-to-tail order, segment 0 receiving the
pre-tick head position and segment k the pre-tick position of segment
k - 1, which is entry k of the pre-tick list head :: tail. -/
theorem C2_follow_invariant (s : SnakeState) (k : Nat) (hg : s.gameOver = false)
    (_hd : s.direction ≠ (0, 0)) (hk : k < s.tail.length) :
    (move_snake_system s).tail.length = s.tail.length ∧
    (move_snake_system s).tail[k]? = (s.headPos :: s.tail)[k]? := by
  rw [move_snake_system_eq s hg]
  exact ⟨shiftTail_fst_length (movePos s) s.tail s.headPos,
    shiftTail_fst_getElem (movePos s) s.tail s.headPos k hk⟩

/-- A running snake with two body segments trailing the head to its left,
used to instantiate the follow and self-collision claims. -/
def followW : SnakeState :=
  { headPos := (100, 0), direction := (1, 0), tail := [(50, 0), (0, 0)],
    fruitPos := (500, 500), gameOver := false }

theorem C2_follow_invariant_witness :
    followW.gameOver = false ∧ followW.direction ≠ (0, 0) ∧ 1 < followW.tail.length ∧
    ((move_snake_system followW).tail.length = followW.tail.length ∧
      (move_snake_system followW).tail[1]? = (followW.headPos :: followW.tail)[1]?) :=
  ⟨rfl, by decide, by decide, C2_follow_invariant followW 1 rfl (by decide) (by decide)⟩

/-- C5: while running, a pickup frame grows the body by exactly one
segment, a frame without pickup leaves the body untouched, and a tick
never changes the segment count. -/
theorem C5_growth_invariant (s : SnakeState) (rx ry : Int) (hg : s.gameOver = false) :
    (s.headPos = s.fruitPos →
      (fruit_collision_system s rx ry).tail.length = s.tail.length + 1) ∧
    (s.headPos ≠ s.fruitPos → (fruit_collision_system s rx ry).tail = s.tail) ∧
    (move_snake_system s).tail.length = s.tail.length := by
  refine ⟨?_, ?_, ?_⟩
  · intro hp
    rw [fruit_collision_system_pickup s rx ry hg hp]
    simp
  · intro hp
    rw [fruit_collision_system_no_pickup s rx ry hp]
  · rw [move_snake_system_eq s hg]
    exact shiftTail_fst_length (movePos s) s.tail s.headPos

theorem C5_growth_invariant_witness :
    followW.gameOver = false ∧
    ((followW.headPos = followW.fruitPos →
        (fruit_collision_system followW 0 0).tail.length = followW.tail.length + 1) ∧
      (followW.headPos ≠ followW.fruitPos →
        (fruit_collision_system followW 0 0).tail = followW.tail) ∧
      (move_snake_system followW).tail.length = followW.tail.length) :=
  ⟨rfl, C5_growth_invariant followW 0 0 rfl⟩

/-- C7: on a pickup with a non-empty body, the appended segment sits at the
current last segment position minus direction times SNAKE_SIZE on each
axis. -/
theorem C7_growth_placement (s : SnakeState) (rx ry : Int) (hg : s.gameOver = false)
    (hp : s.headPos = s.fruitPos) (hne : s.tail ≠ []) :
    (fruit_collision_system s rx ry).tail =
      s.tail ++ [((s.tail.getLast hne).1 - s.direction.1 * SNAKE_SIZE,
        (s.tail.getLast hne).2 - s.direction.2 * SNAKE_SIZE)] := by
  rw [fruit_collision_system_pickup s rx ry hg hp,
    List.getLast?_eq_getLast s.tail hne]
  rfl

/-- A running snake standing on the fruit with one body segment. -/
def pickupTailW : SnakeState :=
  { headPos := (100, 0), direction := (1, 0), tail := [(50, 0)],
    fruitPos := (100, 0), gameOver := false }

theorem C7_growth_placement_witness :
    pickupTailW.gameOver = false ∧ pickupTailW.headPos = pickupTailW.fruitPos ∧
    pickupTailW.tail ≠ [] ∧
    (fruit_collision_system pickupTailW 2 2).tail =
      pickupTailW.tail ++
        [((pickupTailW.tail.getLast (by decide)).1 - pickupTailW.direction.1 * SNAKE_SIZE,
          (pickupTailW.tail.getLast (by decide)).2 - pickupTailW.direction.2 * SNAKE_SIZE)] :=
  ⟨rfl, rfl, by decide, C7_growth_placement pickupTailW 2 2 rfl rfl (by decide)⟩

/-- C10: on a pickup with an empty body the head, which also carries
SnakePart, is the fallback of tail.last().unwrap_or, so exactly one
segment is appended at the head position minus direction times SNAKE_SIZE
and the body reaches length one. -/
theorem C10_empty_body_growth (s : SnakeState) (rx ry : Int) (hg : s.gameOver = false)
    (hp : s.headPos = s.fruitPos) (he : s.tail = []) :
    (fruit_collision_system s rx ry).tail =
      [(s.headPos.1 - s.direction.1 * SNAKE_SIZE, s.headPos.2 - s.direction.2 * SNAKE_SIZE)] := by
  rw [fruit_collision_system_pickup s rx ry hg hp, he]
  rfl

/-- A running snake standing on the fruit with no body yet. -/
def pickupEmptyW : SnakeState :=
  { headPos := (50, 0), direction := (1, 0), tail := [],
    fruitPos := (50, 0), gameOver := false }

/-- C1: in every reachable running state, when after the tick some body
segment position coincides with the new head position, the tick has sent
AppExit. With a non-zero direction every post-shift segment at the new
head position was already there pre-shift among the compared parts; with
the zero direction the invariant forces every part onto the origin head,
where the comparison also fires. -/
theorem C1_self_collision_gameOver (s : SnakeState) (h : Reachable s)
    (hg : s.gameOver = false)
    (hc : ∃ p ∈ (move_snake_system s).tail, p = (move_snake_system s).headPos) :
    (move_snake_system s).gameOver = true := by
  obtain ⟨_, h2, _⟩ := reachable_inv s h
  rw [move_snake_system_eq s hg] at hc ⊢
  have hc' : ∃ p ∈ (shiftTail (movePos s) s.headPos s.tail).1, p = movePos s := hc
  show ((shiftTail (movePos s) s.headPos s.tail).2 || !(inBoundsB (movePos s))) = true
  rw [Bool.or_eq_true]
  left
  obtain ⟨p, hp, hpe⟩ := hc'
  rcases shiftTail_fst_mem (movePos s) s.tail s.headPos p hp with hph | hpm
  · have heq : s.headPos = movePos s := hph ▸ hpe
    have hd1 : s.direction.1 = 0 := by
      have h1c := congrArg Prod.fst heq
      simp only [movePos, SNAKE_SIZE] at h1c
      omega
    have hd2 : s.direction.2 = 0 := by
      have h2c := congrArg Prod.snd heq
      simp only [movePos, SNAKE_SIZE] at h2c
      omega
    have hz : s.direction = (0, 0) := Prod.ext_iff.mpr ⟨hd1, hd2⟩
    obtain ⟨hh, ht⟩ := h2 hz
    have hne : s.tail ≠ [] := by
      intro hnil
      rw [hnil] at hp
      simp [shiftTail] at hp
    obtain ⟨q, rest, htail⟩ := List.exists_cons_of_ne_nil hne
    have hq : q ∈ s.tail := by
      rw [htail]
      exact List.mem_cons_self q rest
    have hq0 : q = (0, 0) := ht q hq
    have hqm : q = movePos s := by
      rw [hq0, ← heq, hh]
    exact shiftTail_snd_of_mem (movePos s) s.tail s.headPos q hq hqm
  · exact shiftTail_snd_of_mem (movePos s) s.tail s.headPos p hpm hpe

/-- The reachable state behind the self-collision witness: the snake eats
at (50, 0) and at (150, 0), reaching two body segments, and then the
direction is reversed from right to left. -/
def reversalW : SnakeState :=
  snake_input_system
    (fruit_collision_system
      (move_snake_system (move_snake_system
        (fruit_collision_system
          (move_snake_system (snake_input_system (initState 1 0) Key.keyD)) 3 0)))
      10 10)
    Key.keyA

theorem C1_self_collision_gameOver_witness :
    reversalW.gameOver = false ∧ 2 ≤ reversalW.tail.length ∧
    (∃ p ∈ (move_snake_system reversalW).tail, p = (move_snake_system reversalW).headPos) ∧
    (move_snake_system reversalW).gameOver = true :=
  ⟨by decide, by decide, by decide,
    C1_self_collision_gameOver reversalW
      (Reachable.input Key.keyA
        (Reachable.fruit 10 10
          (Reachable.tick (Reachable.tick
            (Reachable.fruit 3 0
              (Reachable.tick (Reachable.input Key.keyD (Reachable.init 1 0 (by decide))))
              (by decide))))
          (by decide)))
      (by decide) (by decide)⟩

/-- C3: in every reachable state in which AppExit has not been sent, the
head lies inside the closed box from minus FIELD half-extent times
SNAKE_SIZE to the half-extent times SNAKE_SIZE on both axes. -/
theorem C3_bounds_invariant (s : SnakeState) (h : Reachable s) (hg : s.gameOver = false) :
    -FIELD_WIDTH * SNAKE_SIZE ≤ s.headPos.1 ∧ s.headPos.1 ≤ FIELD_WIDTH * SNAKE_SIZE ∧
    -FIELD_HEIGHT * SNAKE_SIZE ≤ s.headPos.2 ∧ s.headPos.2 ≤ FIELD_HEIGHT * SNAKE_SIZE := by
  have hb := (reachable_inv s h).2.2 hg
  simp only [inBoundsB, Bool.and_eq_true, decide_eq_true_eq] at hb
  exact ⟨hb.1.1.1, hb.1.1.2, hb.1.2, hb.2⟩

theorem C3_bounds_invariant_witness :
    (initState 0 0).gameOver = false ∧
    (-FIELD_WIDTH * SNAKE_SIZE ≤ (initState 0 0).headPos.1 ∧
      (initState 0 0).headPos.1 ≤ FIELD_WIDTH * SNAKE_SIZE ∧
      -FIELD_HEIGHT * SNAKE_SIZE ≤ (initState 0 0).headPos.2 ∧
      (initState 0 0).headPos.2 ≤ FIELD_HEIGHT * SNAKE_SIZE) :=
  ⟨rfl, C3_bounds_invariant (initState 0 0) (Reachable.init 0 0 (by decide)) rfl⟩

/-- C9: in every reachable state the direction is the zero vector or one
of the four axis-aligned unit vectors, and consequently one tick leaves
the head in place or moves it by exactly SNAKE_SIZE along exactly one
axis. -/
theorem C9_direction_range (s : SnakeState) (h : Reachable s) :
    (s.direction = (0, 0) ∨ s.direction = (-1, 0) ∨ s.direction = (1, 0) ∨
      s.direction = (0, 1) ∨ s.direction = (0, -1)) ∧
    ((move_snake_system s).headPos = s.headPos ∨
      ((move_snake_system s).headPos.2 = s.headPos.2 ∧
        ((move_snake_system s).headPos.1 = s.headPos.1 + SNAKE_SIZE ∨
          (move_snake_system s).headPos.1 = s.headPos.1 - SNAKE_SIZE)) ∨
      ((move_snake_system s).headPos.1 = s.headPos.1 ∧
        ((move_snake_system s).headPos.2 = s.headPos.2 + SNAKE_SIZE ∨
          (move_snake_system s).headPos.2 = s.headPos.2 - SNAKE_SIZE))) := by
  have h1 := (reachable_inv s h).1
  refine ⟨h1, ?_⟩
  by_cases hg : s.gameOver = true
  · rw [move_snake_system_gameOver s hg]
    exact Or.inl rfl
  · have hg' : s.gameOver = false := by simpa using hg
    have hval : (move_snake_system s).headPos = movePos s := by
      rw [move_snake_system_eq s hg']
    rw [hval]
    rcases h1 with hd | hd | hd | hd | hd
    · left
      simp [movePos, hd]
    · right; left
      constructor
      · simp [movePos, hd]
      · right
        simp only [movePos, hd]
        ring_nf
    · right; left
      constructor
      · simp [movePos, hd]
      · left
        simp [movePos, hd]
    · right; right
      constructor
      · simp [movePos, hd]
      · left
        simp [movePos, hd]
    · right; right
      constructor
      · simp [movePos, hd]
      · right
        simp only [movePos, hd]
        ring_nf

theorem C9_direction_range_witness :
    ((snake_input_system (initState 1 1) Key.keyW).direction = (0, 0) ∨
      (snake_input_system (initState 1 1) Key.keyW).direction = (-1, 0) ∨
      (snake_input_system (initState 1 1) Key.keyW).direction = (1, 0) ∨
      (snake_input_system (initState 1 1) Key.keyW).direction = (0, 1) ∨
      (snake_input_system (initState 1 1) Key.keyW).direction = (0, -1)) ∧
    ((move_snake_system (snake_input_system (initState 1 1) Key.keyW)).headPos =
        (snake_input_system (initState 1 1) Key.keyW).headPos ∨
      ((move_snake_system (snake_input_system (initState 1 1) Key.keyW)).headPos.2 =
          (snake_input_system (initState 1 1) Key.keyW).headPos.2 ∧
        ((move_snake_system (snake_input_system (initState 1 1) Key.keyW)).headPos.1 =
            (snake_input_system (initState 1 1) Key.keyW).headPos.1 + SNAKE_SIZE ∨
          (move_snake_system (snake_input_system (initState 1 1) Key.keyW)).headPos.1 =
            (snake_input_system (initState 1 1) Key.keyW).headPos.1 - SNAKE_SIZE)) ∨
      ((move_snake_system (snake_input_system (initState 1 1) Key.keyW)).headPos.1 =
          (snake_input_system (initState 1 1) Key.keyW).headPos.1 ∧
        ((move_snake_system (snake_input_system (initState 1 1) Key.keyW)).headPos.2 =
            (snake_input_system (initState 1 1) Key.keyW).headPos.2 + SNAKE_SIZE ∨
          (move_snake_system (snake_input_system (initState 1 1) Key.keyW)).headPos.2 =
            (snake_input_system (initState 1 1) Key.keyW).headPos.2 - SNAKE_SIZE))) :=
  C9_direction_range (snake_input_system (initState 1 1) Key.keyW)
    (Reachable.input Key.keyW (Reachable.init 1 1 (by decide)))

theorem C10_empty_body_growth_witness :
    pickupEmptyW.gameOver = false ∧ pickupEmptyW.headPos = pickupEmptyW.fruitPos ∧
    pickupEmptyW.tail = [] ∧
    (fruit_collision_system pickupEmptyW 3 3).tail =
      [(pickupEmptyW.headPos.1 - pickupEmptyW.direction.1 * SNAKE_SIZE,
        pickupEmptyW.headPos.2 - pickupEmptyW.direction.2 * SNAKE_SIZE)] :=
  ⟨rfl, rfl, rfl, C10_empty_body_growth pickupEmptyW 3 3 rfl rfl rfl⟩

/-- The state behind the wall-termination scenario: fresh snake, fruit
parked far away at (250, 250), direction set to right. -/
def wallW : SnakeState := snake_input_system (initState 5 5) Key.keyD

/-- C4: a running head on the rightmost in-bounds column moving right is
out of bounds after one tick, so the tick sends AppExit; and with the repo
constants (half-width 10) a head marched right from the origin is still
alive on the boundary column after 10 ticks and dead after the 11th, the
bounds check being inclusive. -/
theorem C4_wall_termination (s : SnakeState) (hg : s.gameOver = false)
    (hx : s.headPos.1 = FIELD_WIDTH * SNAKE_SIZE) (hd : s.direction = (1, 0)) :
    (move_snake_system s).gameOver = true ∧
    ((ticks 10 wallW).headPos = (FIELD_WIDTH * SNAKE_SIZE, 0) ∧
      (ticks 10 wallW).gameOver = false ∧
      (ticks 11 wallW).gameOver = true) := by
  constructor
  · rw [move_snake_system_eq s hg]
    show ((shiftTail (movePos s) s.headPos s.tail).2 || !(inBoundsB (movePos s))) = true
    have hover : ¬((movePos s).1 ≤ FIELD_WIDTH * SNAKE_SIZE) := by
      have hp1 : (movePos s).1 = FIELD_WIDTH * SNAKE_SIZE + SNAKE_SIZE := by
        simp [movePos, hd, hx]
      rw [hp1]
      decide
    have hib : inBoundsB (movePos s) = false := by
      simp [inBoundsB, hover]
    rw [hib]
    simp
  · exact ⟨by decide, by decide, by decide⟩

/-- A running snake on the rightmost in-bounds column heading right. -/
def wallEdgeW : SnakeState :=
  { headPos := (500, 0), direction := (1, 0), tail := [], fruitPos := (0, 0),
    gameOver := false }

theorem C4_wall_termination_witness :
    wallEdgeW.gameOver = false ∧ wallEdgeW.headPos.1 = FIELD_WIDTH * SNAKE_SIZE ∧
    wallEdgeW.direction = (1, 0) ∧
    ((move_snake_system wallEdgeW).gameOver = true ∧
      ((ticks 10 wallW).headPos = (FIELD_WIDTH * SNAKE_SIZE, 0) ∧
        (ticks 10 wallW).gameOver = false ∧
        (ticks 11 wallW).gameOver = true)) :=
  ⟨rfl, by decide, rfl, C4_wall_termination wallEdgeW rfl (by decide) rfl⟩

/-- A reachable pickup state: initial fruit on the origin head, direction
already set to right. -/
def pickupSameW : SnakeState := snake_input_system (initState 0 0) Key.keyD

/-- C6 counterexample: gen_fruit_pos never resamples, so when the rng
returns the consumed cell again the relocated fruit equals the consumed
position; here a reachable pickup state consumes the fruit at the origin
and the rng draw (0, 0), allowed by its range, reproduces exactly the
consumed position. -/
theorem C6_counterexample :
    Reachable pickupSameW ∧ pickupSameW.gameOver = false ∧
    pickupSameW.headPos = pickupSameW.fruitPos ∧ RngInRange 0 0 ∧
    (fruit_collision_system pickupSameW 0 0).fruitPos = pickupSameW.fruitPos :=
  ⟨Reachable.input Key.keyD (Reachable.init 0 0 (by decide)),
    by decide, by decide, by decide, by decide⟩

/-- C6 amended: after a pickup the fruit position is gen_fruit_pos of the
two rng draws, which lies inside the grid bounds for every draw in range;
it may coincide with the consumed position. -/
theorem C6_amended_fruit_in_bounds (s : SnakeState) (rx ry : Int)
    (hr : RngInRange rx ry) (hg : s.gameOver = false) (hp : s.headPos = s.fruitPos) :
    (fruit_collision_system s rx ry).fruitPos = gen_fruit_pos rx ry ∧
    -FIELD_WIDTH * SNAKE_SIZE ≤ (fruit_collision_system s rx ry).fruitPos.1 ∧
    (fruit_collision_system s rx ry).fruitPos.1 ≤ FIELD_WIDTH * SNAKE_SIZE ∧
    -FIELD_HEIGHT * SNAKE_SIZE ≤ (fruit_collision_system s rx ry).fruitPos.2 ∧
    (fruit_collision_system s rx ry).fruitPos.2 ≤ FIELD_HEIGHT * SNAKE_SIZE := by
  rw [fruit_collision_system_pickup s rx ry hg hp]
  simp only [RngInRange, FIELD_WIDTH, FIELD_HEIGHT] at hr
  refine ⟨rfl, ?_, ?_, ?_, ?_⟩ <;>
    · show _
      simp only [gen_fruit_pos, FIELD_WIDTH, FIELD_HEIGHT, SNAKE_SIZE]
      omega

theorem C6_amended_fruit_in_bounds_witness :
    RngInRange 0 0 ∧ pickupSameW.gameOver = false ∧
    pickupSameW.headPos = pickupSameW.fruitPos ∧
    ((fruit_collision_system pickupSameW 0 0).fruitPos = gen_fruit_pos 0 0 ∧
      -FIELD_WIDTH * SNAKE_SIZE ≤ (fruit_collision_system pickupSameW 0 0).fruitPos.1 ∧
      (fruit_collision_system pickupSameW 0 0).fruitPos.1 ≤ FIELD_WIDTH * SNAKE_SIZE ∧
      -FIELD_HEIGHT * SNAKE_SIZE ≤ (fruit_collision_system pickupSameW 0 0).fruitPos.2 ∧
      (fruit_collision_system pickupSameW 0 0).fruitPos.2 ≤ FIELD_HEIGHT * SNAKE_SIZE) :=
  ⟨by decide, by decide, by decide,
    C6_amended_fruit_in_bounds pickupSameW 0 0 (by decide) (by decide) (by decide)⟩

/-- A reachable state with zero direction and one body part on the head:
the initial fruit spawns on the origin head, the pickup frame appends a
part at the head position minus a zero step, with no input ever given. -/
def zeroDirW : SnakeState := fruit_collision_system (initState 0 0) 10 10

/-- C8 counterexample: in this reachable state the direction is still the
zero vector and the head, in bounds at the origin, does not move, yet the
tick sends AppExit because the body part resting on the head compares
equal to the unchanged head position. -/
theorem C8_counterexample :
    Reachable zeroDirW ∧ zeroDirW.direction = (0, 0) ∧ zeroDirW.gameOver = false ∧
    inBoundsB zeroDirW.headPos = true ∧
    (move_snake_system zeroDirW).headPos = zeroDirW.headPos ∧
    (move_snake_system zeroDirW).gameOver = true :=
  ⟨Reachable.fruit 10 10 (Reachable.init 0 0 (by decide)) (by decide),
    by decide, by decide, by decide, by decide, by decide⟩

/-- C8 amended: with the zero direction a running tick never moves the
head, and it leaves gameOver clear when the head is in bounds and no tail
part rests on the head position; in particular a tick from the freshly set
up state keeps the head at the origin with gameOver false. -/
theorem C8_amended_zero_direction (s : SnakeState) (hd : s.direction = (0, 0))
    (hg : s.gameOver = false) :
    (move_snake_system s).headPos = s.headPos ∧
    (inBoundsB s.headPos = true → (∀ p ∈ s.tail, p ≠ s.headPos) →
      (move_snake_system s).gameOver = false) ∧
    ((move_snake_system (initState 2 2)).headPos = (0, 0) ∧
      (move_snake_system (initState 2 2)).gameOver = false) := by
  have hmp : movePos s = s.headPos := by
    have h1 : s.direction.1 = 0 := by rw [hd]
    have h2 : s.direction.2 = 0 := by rw [hd]
    simp [movePos, h1, h2]
  refine ⟨?_, ?_, by decide, by decide⟩
  · rw [move_snake_system_eq s hg]
    exact hmp
  · intro hib hnt
    rw [move_snake_system_eq s hg]
    show ((shiftTail (movePos s) s.headPos s.tail).2 || !(inBoundsB (movePos s))) = false
    rw [hmp, hib, shiftTail_snd_false s.headPos s.tail s.headPos hnt]
    rfl

theorem C8_amended_zero_direction_witness :
    (initState 3 3).direction = (0, 0) ∧ (initState 3 3).gameOver = false ∧
    ((move_snake_system (initState 3 3)).headPos = (initState 3 3).headPos ∧
      (inBoundsB (initState 3 3).headPos = true →
        (∀ p ∈ (initState 3 3).tail, p ≠ (initState 3 3).headPos) →
        (move_snake_system (initState 3 3)).gameOver = false) ∧
      ((move_snake_system (initState 2 2)).headPos = (0, 0) ∧
        (move_snake_system (initState 2 2)).gameOver = false)) :=
  ⟨rfl, rfl, C8_amended_zero_direction (initState 3 3) rfl rfl⟩

end BevySnake
